import Mathlib

/-!
Verification of `src/scripts/gen_icon.py`, a build utility that renders a set
of PNG app icons by handing a textually-substituted Swift drawing program to
an external interpreter, then packages the staged images into an `.icns`
bundle with `iconutil`.

The embedding below transcribes the script's constants, the drawing-program
template, the numeric geometry computed inside the template, and the
orchestration in `main` (modelled as a pure function from an environment of
subprocess exit codes to an event trace plus an `Except` result, mirroring
Python's `subprocess.run(..., check=True)` raising `CalledProcessError`).
-/

namespace GenIcon

/-- Transcribes `ICONSET = "build/AppIcon.iconset"` (line 5). -/
def ICONSET : String := "build/AppIcon.iconset"

/-- Transcribes `ICNS_OUT = "Resources/AppIcon.icns"` (line 6). -/
def ICNS_OUT : String := "Resources/AppIcon.icns"

/-- Transcribes the `SIZES` list (lines 8-19). -/
def SIZES : List (String × Nat) :=
  [("icon_16x16.png",        16),
   ("icon_16x16@2x.png",     32),
   ("icon_32x32.png",        32),
   ("icon_32x32@2x.png",     64),
   ("icon_128x128.png",     128),
   ("icon_128x128@2x.png",  256),
   ("icon_256x256.png",     256),
   ("icon_256x256@2x.png",  512),
   ("icon_512x512.png",     512),
   ("icon_512x512@2x.png", 1024)]

/-- The fixed text of the f-string template in `generate_png` (lines 23-68)
that precedes the `{size}` interpolation. -/
def swiftTemplatePre : String := "\nimport Cocoa\nlet size = "

/-- The fixed text of the f-string template between the `{size}` and `{path}`
interpolations.  The doubled braces `\x7b\x7b`/`\x7d\x7d` of the Python
f-string render as single braces, which appear here as their escapes. -/
def swiftTemplateMid : String :=
  "\nlet img = NSImage(size: NSSize(width: size, height: size))\n" ++
  "img.lockFocus()\n" ++
  "let ctx = NSGraphicsContext.current!.cgContext\n" ++
  "let s = CGFloat(size)\n" ++
  "let inset: CGFloat = s * 0.05\n" ++
  "let rect = CGRect(x: inset, y: inset, width: s - inset*2, height: s - inset*2)\n" ++
  "let radius: CGFloat = s * 0.22\n" ++
  "let bgPath = CGPath(roundedRect: rect, cornerWidth: radius, cornerHeight: radius, transform: nil)\n" ++
  "ctx.addPath(bgPath)\n" ++
  "ctx.setFillColor(red: 0.16, green: 0.47, blue: 1.0, alpha: 1.0)\n" ++
  "ctx.fillPath()\n" ++
  "let cardW = s * 0.52; let cardH = s * 0.46\n" ++
  "let cardX = (s - cardW) / 2; let cardY = s * 0.34\n" ++
  "let cardRect = CGRect(x: cardX, y: cardY, width: cardW, height: cardH)\n" ++
  "let cardRadius = s * 0.03\n" ++
  "let cardPath = CGPath(roundedRect: cardRect, cornerWidth: cardRadius, cornerHeight: cardRadius, transform: nil)\n" ++
  "ctx.addPath(cardPath)\n" ++
  "ctx.setFillColor(red: 1, green: 1, blue: 1, alpha: 0.95)\n" ++
  "ctx.fillPath()\n" ++
  "let pinW = s * 0.06; let pinH = s * 0.14\n" ++
  "let pins: [CGFloat] = [cardX + cardW * 0.18, cardX + cardW * 0.43, cardX + cardW * 0.65]\n" ++
  "for px in pins \x7b\n" ++
  "    ctx.addRect(CGRect(x: px, y: cardY + cardH - pinH - s*0.03, width: pinW, height: pinH))\n" ++
  "\x7d\n" ++
  "ctx.setFillColor(red: 0.16, green: 0.47, blue: 1.0, alpha: 1.0)\n" ++
  "ctx.fillPath()\n" ++
  "let cx = s * 0.5; let ay = s * 0.12; let az = s * 0.15\n" ++
  "ctx.move(to: CGPoint(x: cx, y: ay))\n" ++
  "ctx.addLine(to: CGPoint(x: cx - az*0.7, y: ay + az*0.7))\n" ++
  "ctx.addLine(to: CGPoint(x: cx - az*0.25, y: ay + az*0.7))\n" ++
  "ctx.addLine(to: CGPoint(x: cx - az*0.25, y: ay + az*1.3))\n" ++
  "ctx.addLine(to: CGPoint(x: cx + az*0.25, y: ay + az*1.3))\n" ++
  "ctx.addLine(to: CGPoint(x: cx + az*0.25, y: ay + az*0.7))\n" ++
  "ctx.addLine(to: CGPoint(x: cx + az*0.7, y: ay + az*0.7))\n" ++
  "ctx.closePath()\n" ++
  "ctx.setFillColor(red: 1, green: 1, blue: 1, alpha: 0.9)\n" ++
  "ctx.fillPath()\n" ++
  "img.unlockFocus()\n" ++
  "let tiff = img.tiffRepresentation!\n" ++
  "let rep = NSBitmapImageRep(data: tiff)!\n" ++
  "let png = rep.representation(using: .png, properties: [:])!\n" ++
  "try! png.write(to: URL(fileURLWithPath: \""

/-- The fixed text of the f-string template following the `{path}`
interpolation. -/
def swiftTemplatePost : String := "\"))\n"

/-- The `swift_code` f-string of `generate_png` (lines 23-68): the fixed
template with the decimal rendering of `size` and the text of `path`
substituted at their interpolation sites. -/
def swift_code (path : String) (size : Nat) : String :=
  swiftTemplatePre ++ toString size ++ swiftTemplateMid ++ path ++ swiftTemplatePost

/-- The argument vector handed to the external interpreter by `generate_png`
(line 69): `["/usr/bin/swift", "-e", swift_code]`. -/
def swiftArgv (path : String) (size : Nat) : List String :=
  ["/usr/bin/swift", "-e", swift_code path size]

/-- The argument vector of the packaging invocation (line 84):
`["iconutil", "-c", "icns", ICONSET, "-o", ICNS_OUT]`. -/
def iconutilArgv : List String :=
  ["iconutil", "-c", "icns", ICONSET, "-o", ICNS_OUT]

/-- An axis-aligned rectangle with exact rational coordinates, standing for a
`CGRect(x:y:width:height:)` value in the drawing program. -/
structure RectQ where
  x : ℚ
  y : ℚ
  w : ℚ
  h : ℚ
deriving DecidableEq, Repr

/-- The numeric content of the drawing program for one icon: every quantity
the Swift template computes from the edge length `s`. -/
structure IconGeometry where
  inset : ℚ
  bgRect : RectQ
  bgRadius : ℚ
  cardRect : RectQ
  cardRadius : ℚ
  pinW : ℚ
  pinH : ℚ
  pinXs : List ℚ
  pinY : ℚ
  arrow : List (ℚ × ℚ)
deriving DecidableEq, Repr

/-- Transcription of the arithmetic inside the Swift template (lines 29-60)
over exact rationals: each `let` of the template becomes a `let` here, and
the rectangles, pin positions and arrow vertices are collected.  `pinY` is
the common `y` of the three pin rectangles (line 48); `arrow` lists the
seven vertices of the arrow path (lines 53-59). -/
def iconGeometry (s : ℚ) : IconGeometry :=
  let inset : ℚ := s * 0.05
  let rect : RectQ := ⟨inset, inset, s - inset*2, s - inset*2⟩
  let radius : ℚ := s * 0.22
  let cardW : ℚ := s * 0.52
  let cardH : ℚ := s * 0.46
  let cardX : ℚ := (s - cardW) / 2
  let cardY : ℚ := s * 0.34
  let cardRect : RectQ := ⟨cardX, cardY, cardW, cardH⟩
  let cardRadius : ℚ := s * 0.03
  let pinW : ℚ := s * 0.06
  let pinH : ℚ := s * 0.14
  let pins : List ℚ := [cardX + cardW * 0.18, cardX + cardW * 0.43, cardX + cardW * 0.65]
  let cx : ℚ := s * 0.5
  let ay : ℚ := s * 0.12
  let az : ℚ := s * 0.15
  let arrow : List (ℚ × ℚ) :=
    [(cx, ay),
     (cx - az*0.7, ay + az*0.7),
     (cx - az*0.25, ay + az*0.7),
     (cx - az*0.25, ay + az*1.3),
     (cx + az*0.25, ay + az*1.3),
     (cx + az*0.25, ay + az*0.7),
     (cx + az*0.7, ay + az*0.7)]
  ⟨inset, rect, radius, cardRect, cardRadius, pinW, pinH, pins,
   cardY + cardH - pinH - s*0.03, arrow⟩

/-- Scales every coordinate of a rectangle by `c`. -/
def scaleRect (c : ℚ) (r : RectQ) : RectQ := ⟨c * r.x, c * r.y, c * r.w, c * r.h⟩

/-- Scales every quantity of a geometry by `c`; used to state that the whole
drawing is a fixed figure scaled by the edge length. -/
def scaleGeometry (c : ℚ) (g : IconGeometry) : IconGeometry :=
  ⟨c * g.inset, scaleRect c g.bgRect, c * g.bgRadius, scaleRect c g.cardRect,
   c * g.cardRadius, c * g.pinW, c * g.pinH, g.pinXs.map (fun x => c * x),
   c * g.pinY, g.arrow.map (fun v => (c * v.1, c * v.2))⟩

/-- The text before the final `/` of a path, as `os.path.dirname` computes it
for the plain relative paths the script uses; empty when there is no `/`. -/
def dirname (p : String) : String :=
  match (p.toList.reverse.dropWhile (fun c => c ≠ '/')) with
  | [] => ""
  | _ :: rest => String.mk rest.reverse

/-- `os.path.join` for the script's concrete case of a non-empty relative
directory and a bare file name: concatenation with a `/` separator. -/
def joinPath (dir file : String) : String := dir ++ "/" ++ file

/-- Observable steps of a run of the script: directory creation, text written
to standard output (with the characters `print` appends), a rendering
subprocess for a destination path and size, and the packaging subprocess. -/
inductive Event where
  | makedirs (path : String)
  | output (s : String)
  | render (path : String) (size : Nat)
  | pack (src out : String)
deriving DecidableEq, Repr

/-- The environment a run observes: exit codes of the external processes.
`swiftExit path size` is the exit status of the renderer invoked for that
destination and size; `iconutilExit` the packager's exit status. -/
structure Env where
  swiftExit : String → Nat → Nat
  iconutilExit : Nat

/-- Python's `subprocess.CalledProcessError`: the command and its non-zero
exit status, as raised by `subprocess.run(..., check=True)`. -/
structure CalledProcessError where
  cmd : List String
  returncode : Nat
deriving DecidableEq, Repr

/-- `subprocess.run(argv, check=True)` on a process exiting with `code`:
succeeds when the code is zero, otherwise raises `CalledProcessError`. -/
def runChecked (argv : List String) (code : Nat) : Except CalledProcessError Unit :=
  if code = 0 then Except.ok () else Except.error ⟨argv, code⟩

/-- The progress line printed before each render (line 79), including the
space that `end=" "` appends in place of a newline. -/
def progressLine (name : String) (size : Nat) : String :=
  "  " ++ name ++ " (" ++ toString size ++ "x" ++ toString size ++ ")... "

/-- The loop body of `main` over a list of size entries (lines 77-81): for
each entry, print the progress line, run `generate_png` on the joined
destination path, and print `OK`; a raised `CalledProcessError` stops the
loop and propagates. Returns the event trace and the outcome. -/
def renderLoop (env : Env) : List (String × Nat) → List Event × Except CalledProcessError Unit
  | [] => ([], Except.ok ())
  | (name, size) :: rest =>
    let out := joinPath ICONSET name
    match runChecked (swiftArgv out size) (env.swiftExit out size) with
    | Except.error e => ([Event.output (progressLine name size), Event.render out size], Except.error e)
    | Except.ok _ =>
      let this := renderLoop env rest
      (Event.output (progressLine name size) :: Event.render out size ::
        Event.output "OK\n" :: this.1, this.2)

/-- The three events a successfully rendered entry contributes to the trace:
its progress line, the render call, and the `OK` line. -/
def itemEvents (e : String × Nat) : List Event :=
  [Event.output (progressLine e.1 e.2), Event.render (joinPath ICONSET e.1) e.2,
   Event.output "OK\n"]

/-- The `main` function (lines 73-85): create the two directories, render
every size in order, then package; any `CalledProcessError` propagates
unhandled. Returns the event trace and the outcome (an `Except.error` means
the process terminates with that uncaught exception). -/
def main (env : Env) : List Event × Except CalledProcessError Unit :=
  let initEv := [Event.makedirs ICONSET, Event.makedirs (dirname ICNS_OUT)]
  let rendered := renderLoop env SIZES
  match rendered.2 with
  | Except.error e => (initEv ++ rendered.1, Except.error e)
  | Except.ok _ =>
    match runChecked iconutilArgv env.iconutilExit with
    | Except.error e =>
      (initEv ++ rendered.1 ++
        [Event.output "Creating .icns...\n", Event.pack ICONSET ICNS_OUT], Except.error e)
    | Except.ok _ =>
      (initEv ++ rendered.1 ++
        [Event.output "Creating .icns...\n", Event.pack ICONSET ICNS_OUT,
         Event.output ("Done: " ++ ICNS_OUT ++ "\n")], Except.ok ())

/-- The rendering calls recorded in a trace, in order, as (path, size). -/
def rendersOf (tr : List Event) : List (String × Nat) :=
  tr.filterMap (fun ev => match ev with
    | Event.render p s => some (p, s)
    | _ => none)

/-- The packaging calls recorded in a trace, in order, as (source, output). -/
def packsOf (tr : List Event) : List (String × String) :=
  tr.filterMap (fun ev => match ev with
    | Event.pack s o => some (s, o)
    | _ => none)

/-- The (path, size) rendering calls the script plans, one per `SIZES`
entry, in listed order. -/
def plannedRenders : List (String × Nat) :=
  SIZES.map (fun e => (joinPath ICONSET e.1, e.2))

/-- The exit status the environment assigns to the render of one `SIZES`
entry (the renderer is invoked on the joined staging path and the size). -/
def renderExit (env : Env) (e : String × Nat) : Nat :=
  env.swiftExit (joinPath ICONSET e.1) e.2

/-- A filesystem of existing directories, and `os.makedirs` on it:
`exist_ok` decides whether an already-present directory is an error
(`FileExistsError`) or a no-op, mirroring lines 74-75's `exist_ok=True`. -/
def makedirs (fs : List String) (p : String) (exist_ok : Bool) :
    Except String (List String) :=
  if p ∈ fs then
    (if exist_ok then Except.ok fs else Except.error ("FileExistsError: " ++ p))
  else Except.ok (p :: fs)

/-- The INIT step of `main` (lines 74-75) acting on a directory set: create
`ICONSET` and the parent of `ICNS_OUT`, both with `exist_ok=True`. -/
def initStep (fs : List String) : Except String (List String) := do
  let fs1 ← makedirs fs ICONSET true
  makedirs fs1 (dirname ICNS_OUT) true

/-- The directory set after the INIT step: both directories inserted if
absent. -/
def initDirs (fs : List String) : List String :=
  let fs1 := if ICONSET ∈ fs then fs else ICONSET :: fs
  if dirname ICNS_OUT ∈ fs1 then fs1 else dirname ICNS_OUT :: fs1

/-- Reading the nominal size out of a `SIZES` filename: a name of the form
`icon_NxN.png` parses to `(N, false)` and `icon_NxN@2x.png` to `(N, true)`,
anything else to `none`.  Used to state the relation between each filename
and its pixel size. -/
def nominalOf (name : String) : Option (Nat × Bool) :=
  let cs := name.toList
  if cs.take 5 = "icon_".toList then
    let rest := cs.drop 5
    let ds := rest.takeWhile Char.isDigit
    let rest2 := rest.dropWhile Char.isDigit
    if ds ≠ [] ∧ rest2.take 1 = ['x'] then
      let rest3 := rest2.drop 1
      if rest3.take ds.length = ds then
        let n := ds.foldl (fun a c => a * 10 + (c.toNat - 48)) 0
        let rest4 := rest3.drop ds.length
        if rest4 = ".png".toList then some (n, false)
        else if rest4 = "@2x.png".toList then some (n, true)
        else none
      else none
    else none
  else none

/-- One `SIZES` entry respects the naming convention: its filename parses,
and the pixel size is the nominal size, doubled exactly when the name
carries the `@2x` suffix. -/
def entryRespectsNaming (e : String × Nat) : Prop :=
  ∃ n retina, nominalOf e.1 = some (n, retina) ∧
    e.2 = (if retina then 2 * n else n)

instance : DecidablePred entryRespectsNaming := fun e => by
  unfold entryRespectsNaming
  match h : nominalOf e.1 with
  | none =>
    refine Decidable.isFalse ?_
    rintro ⟨n, r, hn, -⟩
    exact Option.noConfusion hn
  | some (n, r) =>
    by_cases he : e.2 = (if r then 2 * n else n)
    · exact Decidable.isTrue ⟨n, r, rfl, he⟩
    · refine Decidable.isFalse ?_
      rintro ⟨n2, r2, hn, hs⟩
      injection hn with h2
      injection h2 with h3 h4
      subst h3
      subst h4
      exact he hs

lemma rendersOf_append (a b : List Event) :
    rendersOf (a ++ b) = rendersOf a ++ rendersOf b :=
  List.filterMap_append a b _

lemma packsOf_append (a b : List Event) :
    packsOf (a ++ b) = packsOf a ++ packsOf b :=
  List.filterMap_append a b _

lemma rendersOf_item (e : String × Nat) :
    rendersOf (itemEvents e) = [(joinPath ICONSET e.1, e.2)] := rfl

lemma packsOf_item (e : String × Nat) : packsOf (itemEvents e) = [] := rfl

lemma rendersOf_bind (l : List (String × Nat)) :
    rendersOf (l.flatMap itemEvents) = l.map (fun e => (joinPath ICONSET e.1, e.2)) := by
  induction l with
  | nil => rfl
  | cons e rest ih =>
    rw [List.flatMap_cons, rendersOf_append, rendersOf_item, ih]
    rfl

lemma packsOf_bind (l : List (String × Nat)) :
    packsOf (l.flatMap itemEvents) = [] := by
  induction l with
  | nil => rfl
  | cons e rest ih =>
    rw [List.flatMap_cons, packsOf_append, packsOf_item, ih]
    rfl

lemma packsOf_initEv :
    packsOf [Event.makedirs ICONSET, Event.makedirs (dirname ICNS_OUT)] = [] := rfl

lemma packsOf_tail_done :
    packsOf [Event.output "Creating .icns...\n", Event.pack ICONSET ICNS_OUT,
      Event.output ("Done: " ++ ICNS_OUT ++ "\n")] = [(ICONSET, ICNS_OUT)] := rfl

lemma packsOf_tail_nodone :
    packsOf [Event.output "Creating .icns...\n", Event.pack ICONSET ICNS_OUT] =
      [(ICONSET, ICNS_OUT)] := rfl

lemma packsOf_tail_renderfail (e : String × Nat) :
    packsOf [Event.output (progressLine e.1 e.2),
      Event.render (joinPath ICONSET e.1) e.2] = [] := rfl

lemma rendersOf_initEv :
    rendersOf [Event.makedirs ICONSET, Event.makedirs (dirname ICNS_OUT)] = [] := rfl

lemma rendersOf_tail_renderfail (e : String × Nat) :
    rendersOf [Event.output (progressLine e.1 e.2),
      Event.render (joinPath ICONSET e.1) e.2] = [(joinPath ICONSET e.1, e.2)] := rfl

lemma renderLoop_ok (env : Env) (l : List (String × Nat))
    (h : ∀ e ∈ l, renderExit env e = 0) :
    renderLoop env l = (l.flatMap itemEvents, Except.ok ()) := by
  induction l with
  | nil => rfl
  | cons e rest ih =>
    obtain ⟨name, size⟩ := e
    have he : env.swiftExit (joinPath ICONSET name) size = 0 :=
      h (name, size) (List.mem_cons_self _ _)
    have ih2 := ih (fun x hx => h x (List.mem_cons_of_mem _ hx))
    simp [renderLoop, runChecked, he, ih2, itemEvents, List.flatMap_cons]

lemma renderLoop_fail (env : Env) (l1 : List (String × Nat)) (e : String × Nat)
    (l2 : List (String × Nat)) (h1 : ∀ x ∈ l1, renderExit env x = 0)
    (h2 : renderExit env e ≠ 0) :
    renderLoop env (l1 ++ e :: l2) =
      (l1.flatMap itemEvents ++
        [Event.output (progressLine e.1 e.2), Event.render (joinPath ICONSET e.1) e.2],
       Except.error ⟨swiftArgv (joinPath ICONSET e.1) e.2, renderExit env e⟩) := by
  induction l1 with
  | nil =>
    obtain ⟨name, size⟩ := e
    have h2a : ¬ env.swiftExit (joinPath ICONSET name) size = 0 := h2
    simp [renderLoop, runChecked, h2a, renderExit]
  | cons x xs ih =>
    obtain ⟨xn, xsize⟩ := x
    have hx : env.swiftExit (joinPath ICONSET xn) xsize = 0 :=
      h1 (xn, xsize) (List.mem_cons_self _ _)
    have ih2 := ih (fun y hy => h1 y (List.mem_cons_of_mem _ hy))
    simp [renderLoop, runChecked, hx, ih2, itemEvents, List.flatMap_cons]

lemma renderLoop_renders_prefix (env : Env) (l : List (String × Nat)) :
    rendersOf (renderLoop env l).1 <+: l.map (fun e => (joinPath ICONSET e.1, e.2)) := by
  induction l with
  | nil => exact ⟨[], rfl⟩
  | cons e rest ih =>
    obtain ⟨name, size⟩ := e
    by_cases h : env.swiftExit (joinPath ICONSET name) size = 0
    · obtain ⟨t, ht⟩ := ih
      refine ⟨t, ?_⟩
      simp only [renderLoop, runChecked, h, if_pos, List.map_cons]
      simp only [rendersOf, List.filterMap] at ht ⊢
      simp [ht]
    · refine ⟨rest.map (fun e => (joinPath ICONSET e.1, e.2)), ?_⟩
      simp [renderLoop, runChecked, h, rendersOf]

lemma main_ok (env : Env) (h : ∀ e ∈ SIZES, renderExit env e = 0)
    (hp : env.iconutilExit = 0) :
    main env = ([Event.makedirs ICONSET, Event.makedirs (dirname ICNS_OUT)] ++
      SIZES.flatMap itemEvents ++
      [Event.output "Creating .icns...\n", Event.pack ICONSET ICNS_OUT,
       Event.output ("Done: " ++ ICNS_OUT ++ "\n")], Except.ok ()) := by
  simp [main, renderLoop_ok env SIZES h, runChecked, hp]

lemma main_packfail (env : Env) (h : ∀ e ∈ SIZES, renderExit env e = 0)
    (hp : env.iconutilExit ≠ 0) :
    main env = ([Event.makedirs ICONSET, Event.makedirs (dirname ICNS_OUT)] ++
      SIZES.flatMap itemEvents ++
      [Event.output "Creating .icns...\n", Event.pack ICONSET ICNS_OUT],
      Except.error ⟨iconutilArgv, env.iconutilExit⟩) := by
  simp [main, renderLoop_ok env SIZES h, runChecked, hp]

lemma main_renderfail (env : Env) (l1 : List (String × Nat)) (e : String × Nat)
    (l2 : List (String × Nat)) (hsplit : SIZES = l1 ++ e :: l2)
    (h1 : ∀ x ∈ l1, renderExit env x = 0) (h2 : renderExit env e ≠ 0) :
    main env = ([Event.makedirs ICONSET, Event.makedirs (dirname ICNS_OUT)] ++
      (l1.flatMap itemEvents ++
        [Event.output (progressLine e.1 e.2), Event.render (joinPath ICONSET e.1) e.2]),
      Except.error ⟨swiftArgv (joinPath ICONSET e.1) e.2, renderExit env e⟩) := by
  simp [main, hsplit, renderLoop_fail env l1 e l2 h1 h2]

lemma exists_first_failure {α : Type} {P : α → Prop} :
    ∀ (l : List α), (¬ ∀ e ∈ l, P e) →
      ∃ l1 e l2, l = l1 ++ e :: l2 ∧ (∀ x ∈ l1, P x) ∧ ¬ P e
  | [], h => absurd (by simp) h
  | x :: rest, h => by
    by_cases hx : P x
    · have hrest : ¬ ∀ e ∈ rest, P e := fun hall => h (by
        intro e he
        rcases List.mem_cons.mp he with rfl | hm
        · exact hx
        · exact hall e hm)
      obtain ⟨l1, e, l2, hsp, hall, hne⟩ := exists_first_failure rest hrest
      refine ⟨x :: l1, e, l2, by rw [hsp]; rfl, ?_, hne⟩
      intro y hy
      rcases List.mem_cons.mp hy with rfl | hm
      · exact hx
      · exact hall y hm
    · exact ⟨[], x, rest, rfl, by simp, hx⟩

lemma pack_mem_iff (tr : List Event) (s o : String) :
    Event.pack s o ∈ tr ↔ (s, o) ∈ packsOf tr := by
  constructor
  · intro h
    exact List.mem_filterMap.mpr ⟨Event.pack s o, h, rfl⟩
  · intro h
    obtain ⟨ev, hev, hm⟩ := List.mem_filterMap.mp h
    cases ev with
    | pack a b =>
      injection hm with hm2
      injection hm2 with ha hb
      rw [← ha, ← hb]
      exact hev
    | makedirs p => exact Option.noConfusion hm
    | output t => exact Option.noConfusion hm
    | render p n => exact Option.noConfusion hm

lemma append_cons_eq_unique {α : Type} (a : α) :
    ∀ (p1 pre s1 post : List α), a ∉ p1 → a ∉ s1 →
      p1 ++ a :: s1 = pre ++ a :: post → pre = p1 ∧ post = s1 := by
  intro p1
  induction p1 with
  | nil =>
    intro pre s1 post h1 h2 h
    cases pre with
    | nil =>
      simp only [List.nil_append] at h
      injection h with h3 h4
      exact ⟨rfl, h4.symm⟩
    | cons b bs =>
      simp only [List.nil_append, List.cons_append] at h
      injection h with h3 h4
      subst h3
      exact absurd (h4 ▸ List.mem_append_right bs (List.mem_cons_self a post)) h2
  | cons c cs ih =>
    intro pre s1 post h1 h2 h
    cases pre with
    | nil =>
      simp only [List.cons_append, List.nil_append] at h
      injection h with h3 h4
      subst h3
      exact absurd (List.mem_cons_self c cs) h1
    | cons b bs =>
      simp only [List.cons_append] at h
      injection h with h3 h4
      obtain ⟨hpre, hpost⟩ :=
        ih bs s1 post (fun hm => h1 (List.mem_cons_of_mem _ hm)) h2 h4
      subst h3
      exact ⟨by rw [hpre], hpost⟩

lemma plannedRenders_nodup : plannedRenders.Nodup := by decide

lemma plannedRenders_eq (l1 : List (String × Nat)) (e : String × Nat)
    (l2 : List (String × Nat)) (hsplit : SIZES = l1 ++ e :: l2) :
    plannedRenders = l1.map (fun x => (joinPath ICONSET x.1, x.2)) ++
      (joinPath ICONSET e.1, e.2) ::
        l2.map (fun x => (joinPath ICONSET x.1, x.2)) := by
  rw [plannedRenders, hsplit]
  simp

lemma main_rendersOf (env : Env) :
    rendersOf (main env).1 = rendersOf (renderLoop env SIZES).1 := by
  by_cases hall : ∀ e ∈ SIZES, renderExit env e = 0
  · by_cases hic : env.iconutilExit = 0
    · rw [main_ok env hall hic, renderLoop_ok env SIZES hall]
      simp [rendersOf_append, rendersOf]
    · rw [main_packfail env hall hic, renderLoop_ok env SIZES hall]
      simp [rendersOf_append, rendersOf]
  · obtain ⟨l1, e, l2, hsp, h1, h2⟩ := exists_first_failure SIZES hall
    rw [main_renderfail env l1 e l2 hsp h1 h2, hsp, renderLoop_fail env l1 e l2 h1 h2]
    simp [rendersOf_append, rendersOf]

lemma main_renders_prefix_planned (env : Env) :
    rendersOf (main env).1 <+: plannedRenders := by
  rw [main_rendersOf]
  exact renderLoop_renders_prefix env SIZES

lemma plannedRenders_fst_nodup : (plannedRenders.map Prod.fst).Nodup := by decide

/-- C2: the hard-coded size list has exactly 10 (filename, pixel-size)
pairs, and each entry respects the naming convention: a filename without
the `@2x` suffix carries a pixel size equal to the nominal size encoded in
the name, while an `@2x` filename carries twice its nominal size. -/
theorem sizes_list_naming_convention :
    SIZES.length = 10 ∧ ∀ e ∈ SIZES, entryRespectsNaming e := by
  constructor
  · decide
  · decide

/-- C2 witness: the naming-convention theorem applied at the concrete
`@2x` entry `("icon_16x16@2x.png", 32)` of the list. -/
theorem sizes_list_naming_convention_witness :
    ("icon_16x16@2x.png", 32) ∈ SIZES ∧
    entryRespectsNaming ("icon_16x16@2x.png", 32) :=
  ⟨by decide, sizes_list_naming_convention.2 ("icon_16x16@2x.png", 32) (by decide)⟩

/-- C3 counterexample: the size list does not have eleven entries — its
length is 10, not 11. -/
theorem sizes_list_not_eleven : (SIZES.length = 11) = False :=
  eq_false (by decide)

/-- C3 amended: there are ten hard-coded SizeSpec entries (filename paired
with integer pixel dimension), and they are a fixed constant of the
program (immutable for the process lifetime). -/
theorem sizes_list_ten_fixed_entries :
    SIZES.length = 10 ∧
    SIZES = [("icon_16x16.png", 16), ("icon_16x16@2x.png", 32),
      ("icon_32x32.png", 32), ("icon_32x32@2x.png", 64),
      ("icon_128x128.png", 128), ("icon_128x128@2x.png", 256),
      ("icon_256x256.png", 256), ("icon_256x256@2x.png", 512),
      ("icon_512x512.png", 512), ("icon_512x512@2x.png", 1024)] :=
  ⟨by decide, rfl⟩

/-- C9: `generate_png` is deterministic in the command it issues — two
calls with equal (path, size) arguments construct the same drawing-program
text and the same interpreter argument vector, and two whole runs observing
identical exit codes produce identical traces and outcomes. -/
theorem generate_png_deterministic (env1 env2 : Env) (p1 p2 : String)
    (s1 s2 : Nat) (hp : p1 = p2) (hs : s1 = s2) :
    (swift_code p1 s1 = swift_code p2 s2 ∧ swiftArgv p1 s1 = swiftArgv p2 s2) ∧
    (env1.swiftExit = env2.swiftExit → env1.iconutilExit = env2.iconutilExit →
      main env1 = main env2) := by
  subst hp
  subst hs
  refine ⟨⟨rfl, rfl⟩, ?_⟩
  obtain ⟨a1, b1⟩ := env1
  obtain ⟨a2, b2⟩ := env2
  intro h1 h2
  have ha : a1 = a2 := h1
  have hb : b1 = b2 := h2
  subst ha
  subst hb
  rfl

/-- C9 witness: the determinism theorem applied at a concrete path, size
and environment. -/
theorem generate_png_deterministic_witness :
    (swift_code "a.png" 16 = swift_code "a.png" 16 ∧
     swiftArgv "a.png" 16 = swiftArgv "a.png" 16) ∧
    (Env.swiftExit ⟨fun _ _ => 0, 0⟩ = Env.swiftExit ⟨fun _ _ => 0, 0⟩ →
     Env.iconutilExit ⟨fun _ _ => 0, 0⟩ = Env.iconutilExit ⟨fun _ _ => 0, 0⟩ →
     main ⟨fun _ _ => 0, 0⟩ = main ⟨fun _ _ => 0, 0⟩) :=
  generate_png_deterministic ⟨fun _ _ => 0, 0⟩ ⟨fun _ _ => 0, 0⟩
    "a.png" "a.png" 16 16 rfl rfl

/-- C10: the 10 filenames of the size list are pairwise distinct, hence so
are the staged destination paths, and in every run the recorded render
calls target pairwise distinct destination paths (no staged image is
overwritten by a later iteration). -/
theorem staged_paths_pairwise_distinct :
    SIZES.length = 10 ∧ (SIZES.map Prod.fst).Nodup ∧
    (plannedRenders.map Prod.fst).Nodup ∧
    ∀ env : Env, ((rendersOf (main env).1).map Prod.fst).Nodup := by
  refine ⟨by decide, by decide, plannedRenders_fst_nodup, ?_⟩
  intro env
  have hsub : List.Sublist ((rendersOf (main env).1).map Prod.fst)
      (plannedRenders.map Prod.fst) :=
    ((main_renders_prefix_planned env).sublist).map Prod.fst
  exact List.Nodup.sublist hsub plannedRenders_fst_nodup

/-- C1: for every call of `generate_png` with destination path and edge
length, the drawing program is the fixed template with the edge length and
path substituted textually, and its geometry uses fixed proportions of the
edge length throughout: background corner radius 22% and inset 5% on each
side (so the rounded square spans 90% of the edge), a card of 52% width
and 46% height centered horizontally, three pin bars (taller than wide,
6% by 14%) at fixed proportional x-offsets with their tops 3% of the edge
below the card's top edge, and a seven-vertex arrow shape at fixed
proportional offsets anchored 12% of the edge from the canvas border; the
whole geometry is one fixed figure scaled by the edge length. -/
theorem generate_png_fixed_template_proportions (path : String) (n : Nat) :
    swift_code path n =
      swiftTemplatePre ++ toString n ++ swiftTemplateMid ++ path ++ swiftTemplatePost ∧
    swiftArgv path n = ["/usr/bin/swift", "-e", swift_code path n] ∧
    (iconGeometry n).bgRadius = (22 / 100) * n ∧
    (iconGeometry n).inset = (5 / 100) * n ∧
    (iconGeometry n).bgRect =
      ⟨(5 / 100) * n, (5 / 100) * n, (90 / 100) * n, (90 / 100) * n⟩ ∧
    (iconGeometry n).cardRect.w = (52 / 100) * n ∧
    (iconGeometry n).cardRect.h = (46 / 100) * n ∧
    (iconGeometry n).cardRect.x = ((n : ℚ) - (iconGeometry n).cardRect.w) / 2 ∧
    (iconGeometry n).pinXs =
      ([(417 / 1250) * n, (1159 / 2500) * n, (289 / 500) * n] : List ℚ) ∧
    (iconGeometry n).pinY + (iconGeometry n).pinH =
      (iconGeometry n).cardRect.y + (iconGeometry n).cardRect.h - (3 / 100) * n ∧
    (iconGeometry n).pinW = (6 / 100) * n ∧
    (iconGeometry n).pinH = (14 / 100) * n ∧
    (iconGeometry n).arrow =
      ([((1 / 2) * n, (3 / 25) * n), ((79 / 200) * n, (9 / 40) * n),
        ((37 / 80) * n, (9 / 40) * n), ((37 / 80) * n, (63 / 200) * n),
        ((43 / 80) * n, (63 / 200) * n), ((43 / 80) * n, (9 / 40) * n),
        ((121 / 200) * n, (9 / 40) * n)] : List (ℚ × ℚ)) ∧
    iconGeometry n = scaleGeometry n (iconGeometry 1) := by
  refine ⟨rfl, rfl, ?_, ?_, ?_, ?_, ?_, ?_, ?_, ?_, ?_, ?_, ?_, ?_⟩
  · simp [iconGeometry]
    ring
  · simp [iconGeometry]
    ring
  · simp [iconGeometry]
    norm_num
    repeat' apply And.intro
    all_goals ring
  · simp [iconGeometry]
    ring
  · simp [iconGeometry]
    ring
  · simp [iconGeometry]
  · simp [iconGeometry]
    norm_num
    repeat' apply And.intro
    all_goals ring
  · simp [iconGeometry]
    ring
  · simp [iconGeometry]
    ring
  · simp [iconGeometry]
    ring
  · simp [iconGeometry]
    norm_num
    repeat' apply And.intro
    all_goals ring
  · simp [iconGeometry, scaleGeometry, scaleRect]
    norm_num
    repeat' apply And.intro
    all_goals ring

/-- C4: a non-zero exit status of either external process is fatal — the
run succeeds exactly when every render exit code and the packager exit code
are zero, every propagated error carries a non-zero exit status (nothing is
caught or recovered), and no command is retried (each render target occurs
at most once in the trace, and the packager is invoked at most once). -/
theorem nonzero_exit_fatal_no_retry (env : Env) :
    ((main env).2 = Except.ok () ↔
      (∀ e ∈ SIZES, renderExit env e = 0) ∧ env.iconutilExit = 0) ∧
    (∀ err, (main env).2 = Except.error err → err.returncode ≠ 0) ∧
    (rendersOf (main env).1).Nodup ∧
    (packsOf (main env).1).length ≤ 1 := by
  have hnodup : (rendersOf (main env).1).Nodup :=
    List.Nodup.sublist (main_renders_prefix_planned env).sublist plannedRenders_nodup
  refine ⟨?_, ?_, hnodup, ?_⟩
  · by_cases hall : ∀ e ∈ SIZES, renderExit env e = 0
    · by_cases hic : env.iconutilExit = 0
      · rw [main_ok env hall hic]
        exact ⟨fun _ => ⟨hall, hic⟩, fun _ => rfl⟩
      · rw [main_packfail env hall hic]
        exact ⟨fun h => Except.noConfusion h, fun hh => absurd hh.2 hic⟩
    · obtain ⟨l1, e, l2, hsp, h1, h2⟩ := exists_first_failure SIZES hall
      rw [main_renderfail env l1 e l2 hsp h1 h2]
      exact ⟨fun h => Except.noConfusion h, fun hh => absurd hh.1 hall⟩
  · by_cases hall : ∀ e ∈ SIZES, renderExit env e = 0
    · by_cases hic : env.iconutilExit = 0
      · rw [main_ok env hall hic]
        intro err herr
        exact Except.noConfusion herr
      · rw [main_packfail env hall hic]
        intro err herr
        injection herr with h
        rw [← h]
        exact hic
    · obtain ⟨l1, e, l2, hsp, h1, h2⟩ := exists_first_failure SIZES hall
      rw [main_renderfail env l1 e l2 hsp h1 h2]
      intro err herr
      injection herr with h
      rw [← h]
      exact h2
  · by_cases hall : ∀ e ∈ SIZES, renderExit env e = 0
    · by_cases hic : env.iconutilExit = 0
      · rw [main_ok env hall hic]
        simp only [packsOf_append, packsOf_bind, packsOf_initEv, packsOf_tail_done,
          List.nil_append, List.append_nil]
        decide
      · rw [main_packfail env hall hic]
        simp only [packsOf_append, packsOf_bind, packsOf_initEv, packsOf_tail_nodone,
          List.nil_append, List.append_nil]
        decide
    · obtain ⟨l1, e, l2, hsp, h1, h2⟩ := exists_first_failure SIZES hall
      rw [main_renderfail env l1 e l2 hsp h1 h2]
      simp only [packsOf_append, packsOf_bind, packsOf_initEv, packsOf_tail_renderfail,
        List.nil_append, List.append_nil]
      decide

/-- C4 witness: with an environment whose packager exits with status 1 and
whose renders all succeed, the propagated error has a non-zero status and
the success equivalence is available at that environment. -/
theorem nonzero_exit_fatal_no_retry_witness :
    ((⟨iconutilArgv, 1⟩ : CalledProcessError).returncode ≠ 0) ∧
    ((main ⟨fun _ _ => 0, 1⟩).2 = Except.ok () ↔
      (∀ e ∈ SIZES, renderExit ⟨fun _ _ => 0, 1⟩ e = 0) ∧
      Env.iconutilExit ⟨fun _ _ => 0, 1⟩ = 0) := by
  constructor
  · exact (nonzero_exit_fatal_no_retry ⟨fun _ _ => 0, 1⟩).2.1 ⟨iconutilArgv, 1⟩
      (by rw [main_packfail ⟨fun _ _ => 0, 1⟩ (fun _ _ => rfl) (by decide)])
  · exact (nonzero_exit_fatal_no_retry ⟨fun _ _ => 0, 1⟩).1

/-- C5: renders happen in the listed order — the recorded render calls of
any run form a prefix of the planned per-entry calls — and when the
entries before a split all succeed while the split entry fails, the run's
render calls are exactly the planned calls through the failing entry and
the run terminates with the propagated `CalledProcessError`. -/
theorem renders_in_order_halt_on_failure (env : Env) :
    rendersOf (main env).1 <+: plannedRenders ∧
    (∀ l1 e l2, SIZES = l1 ++ e :: l2 →
      (∀ x ∈ l1, renderExit env x = 0) → renderExit env e ≠ 0 →
      rendersOf (main env).1 =
        l1.map (fun x => (joinPath ICONSET x.1, x.2)) ++
          [(joinPath ICONSET e.1, e.2)] ∧
      (main env).2 =
        Except.error ⟨swiftArgv (joinPath ICONSET e.1) e.2, renderExit env e⟩) := by
  refine ⟨main_renders_prefix_planned env, ?_⟩
  intro l1 e l2 hsp h1 h2
  rw [main_renderfail env l1 e l2 hsp h1 h2]
  constructor
  · simp only [rendersOf_append, rendersOf_bind, rendersOf_initEv,
      rendersOf_tail_renderfail, List.nil_append]
  · rfl

/-- C5 witness: with an environment in which only the render of
`icon_32x32.png` fails, the run records exactly the first three planned
render calls and terminates with the propagated error. -/
theorem renders_in_order_halt_on_failure_witness :
    rendersOf (main ⟨fun p _ =>
        if p = "build/AppIcon.iconset/icon_32x32.png" then 1 else 0, 0⟩).1 =
      ([("icon_16x16.png", 16), ("icon_16x16@2x.png", 32)] :
          List (String × Nat)).map (fun x => (joinPath ICONSET x.1, x.2)) ++
        [(joinPath ICONSET "icon_32x32.png", 32)] ∧
    (main ⟨fun p _ =>
        if p = "build/AppIcon.iconset/icon_32x32.png" then 1 else 0, 0⟩).2 =
      Except.error ⟨swiftArgv (joinPath ICONSET "icon_32x32.png") 32,
        renderExit ⟨fun p _ =>
          if p = "build/AppIcon.iconset/icon_32x32.png" then 1 else 0, 0⟩
          ("icon_32x32.png", 32)⟩ :=
  (renders_in_order_halt_on_failure _).2
    [("icon_16x16.png", 16), ("icon_16x16@2x.png", 32)]
    ("icon_32x32.png", 32)
    [("icon_32x32@2x.png", 64), ("icon_128x128.png", 128),
     ("icon_128x128@2x.png", 256), ("icon_256x256.png", 256),
     ("icon_256x256@2x.png", 512), ("icon_512x512.png", 512),
     ("icon_512x512@2x.png", 1024)]
    rfl (by decide) (by decide)

/-- C6: the packaging call happens at most once per run, it happens exactly
when every render exit code is zero (its invocation is gated on nothing
else — in particular no check of the staging directory's contents), and at
any occurrence of the packaging event the events before it already contain
every planned render call and no render call follows it. -/
theorem packaging_once_after_all_renders (env : Env) :
    (packsOf (main env).1).length ≤ 1 ∧
    (Event.pack ICONSET ICNS_OUT ∈ (main env).1 ↔
      ∀ e ∈ SIZES, renderExit env e = 0) ∧
    (∀ pre post, (main env).1 = pre ++ Event.pack ICONSET ICNS_OUT :: post →
      rendersOf pre = plannedRenders ∧ rendersOf post = []) := by
  by_cases hall : ∀ e ∈ SIZES, renderExit env e = 0
  · have hnp1 : Event.pack ICONSET ICNS_OUT ∉
        ([Event.makedirs ICONSET, Event.makedirs (dirname ICNS_OUT)] ++
          SIZES.flatMap itemEvents ++ [Event.output "Creating .icns...\n"]) := by
      rw [pack_mem_iff]
      simp only [packsOf_append, packsOf_bind, packsOf_initEv, List.nil_append,
        List.append_nil]
      decide
    have hrpre : rendersOf
        ([Event.makedirs ICONSET, Event.makedirs (dirname ICNS_OUT)] ++
          SIZES.flatMap itemEvents ++ [Event.output "Creating .icns...\n"]) =
        plannedRenders := by
      simp only [rendersOf_append, rendersOf_bind, rendersOf_initEv, List.nil_append]
      simp [rendersOf, plannedRenders]
    by_cases hic : env.iconutilExit = 0
    · refine ⟨?_, ?_, ?_⟩
      · rw [main_ok env hall hic]
        simp only [packsOf_append, packsOf_bind, packsOf_initEv, packsOf_tail_done,
          List.nil_append, List.append_nil]
        decide
      · rw [main_ok env hall hic]
        simp only [List.mem_append, List.mem_cons]
        exact ⟨fun _ => hall, fun _ => Or.inr (by simp)⟩
      · intro pre post h
        rw [main_ok env hall hic] at h
        have h2 : ([Event.makedirs ICONSET, Event.makedirs (dirname ICNS_OUT)] ++
            SIZES.flatMap itemEvents ++ [Event.output "Creating .icns...\n"]) ++
            Event.pack ICONSET ICNS_OUT ::
              [Event.output ("Done: " ++ ICNS_OUT ++ "\n")] =
            pre ++ Event.pack ICONSET ICNS_OUT :: post := by
          rw [← h]
          simp
        obtain ⟨hpre, hpost⟩ := append_cons_eq_unique _ _ pre _ post hnp1
          (by decide) h2
        rw [hpre, hpost]
        exact ⟨hrpre, rfl⟩
    · refine ⟨?_, ?_, ?_⟩
      · rw [main_packfail env hall hic]
        simp only [packsOf_append, packsOf_bind, packsOf_initEv, packsOf_tail_nodone,
          List.nil_append, List.append_nil]
        decide
      · rw [main_packfail env hall hic]
        simp only [List.mem_append, List.mem_cons]
        exact ⟨fun _ => hall, fun _ => Or.inr (by simp)⟩
      · intro pre post h
        rw [main_packfail env hall hic] at h
        have h2 : ([Event.makedirs ICONSET, Event.makedirs (dirname ICNS_OUT)] ++
            SIZES.flatMap itemEvents ++ [Event.output "Creating .icns...\n"]) ++
            Event.pack ICONSET ICNS_OUT :: ([] : List Event) =
            pre ++ Event.pack ICONSET ICNS_OUT :: post := by
          rw [← h]
          simp
        obtain ⟨hpre, hpost⟩ := append_cons_eq_unique _ _ pre _ post hnp1
          (by decide) h2
        rw [hpre, hpost]
        exact ⟨hrpre, rfl⟩
  · obtain ⟨l1, e, l2, hsp, h1, h2⟩ := exists_first_failure SIZES hall
    have hnp : Event.pack ICONSET ICNS_OUT ∉ (main env).1 := by
      rw [main_renderfail env l1 e l2 hsp h1 h2, pack_mem_iff]
      simp only [packsOf_append, packsOf_bind, packsOf_initEv,
        packsOf_tail_renderfail, List.nil_append, List.append_nil]
      decide
    refine ⟨?_, ?_, ?_⟩
    · rw [main_renderfail env l1 e l2 hsp h1 h2]
      simp only [packsOf_append, packsOf_bind, packsOf_initEv,
        packsOf_tail_renderfail, List.nil_append, List.append_nil]
      decide
    · exact ⟨fun hm => absurd hm hnp, fun hh => absurd hh hall⟩
    · intro pre post h
      exact absurd (h ▸ List.mem_append_right pre
        (List.mem_cons_self _ post)) hnp

/-- C6 witness: in a fully successful run, splitting the trace at the
packaging event shows all planned renders before it and none after it. -/
theorem packaging_once_after_all_renders_witness :
    rendersOf ([Event.makedirs ICONSET, Event.makedirs (dirname ICNS_OUT)] ++
      SIZES.flatMap itemEvents ++ [Event.output "Creating .icns...\n"]) =
      plannedRenders ∧
    rendersOf [Event.output ("Done: " ++ ICNS_OUT ++ "\n")] = [] :=
  (packaging_once_after_all_renders ⟨fun _ _ => 0, 0⟩).2.2
    ([Event.makedirs ICONSET, Event.makedirs (dirname ICNS_OUT)] ++
      SIZES.flatMap itemEvents ++ [Event.output "Creating .icns...\n"])
    [Event.output ("Done: " ++ ICNS_OUT ++ "\n")]
    (by rw [main_ok ⟨fun _ _ => 0, 0⟩ (fun _ _ => rfl) rfl]; simp)

/-- C7: every run begins by creating the staging directory and the parent
directory of the icon-bundle output — the first two trace events are those
two `makedirs` calls — and the creation is idempotent: on any starting
directory set the INIT step succeeds (never raising `FileExistsError`,
thanks to `exist_ok=True`), both directories exist afterwards, and running
the INIT step again on the result succeeds and changes nothing. -/
theorem init_dirs_created_idempotently (env : Env) (fs : List String) :
    (∃ rest, (main env).1 =
      Event.makedirs ICONSET :: Event.makedirs (dirname ICNS_OUT) :: rest) ∧
    initStep fs = Except.ok (initDirs fs) ∧
    ICONSET ∈ initDirs fs ∧ dirname ICNS_OUT ∈ initDirs fs ∧
    initStep (initDirs fs) = Except.ok (initDirs fs) ∧
    initDirs (initDirs fs) = initDirs fs := by
  have hstep : ∀ gs : List String, initStep gs = Except.ok (initDirs gs) := by
    intro gs
    by_cases h1 : ICONSET ∈ gs
    · by_cases h2 : dirname ICNS_OUT ∈ gs
      · simp [initStep, makedirs, initDirs, h1, h2, Bind.bind, Except.bind]
      · simp [initStep, makedirs, initDirs, h1, h2, Bind.bind, Except.bind]
    · by_cases h2 : dirname ICNS_OUT ∈ ICONSET :: gs
      · simp [initStep, makedirs, initDirs, h1, h2, Bind.bind, Except.bind]
      · simp [initStep, makedirs, initDirs, h1, h2, Bind.bind, Except.bind]
  have hmem1 : ∀ gs : List String, ICONSET ∈ initDirs gs := by
    intro gs
    unfold initDirs
    by_cases h1 : ICONSET ∈ gs
    · simp only [h1, if_true]
      by_cases h2 : dirname ICNS_OUT ∈ gs
      · simp [h1, h2]
      · simp [h1, h2]
    · simp only [h1, if_false]
      by_cases h2 : dirname ICNS_OUT ∈ ICONSET :: gs
      · simp [h1, h2]
      · simp [h1, h2]
  have hmem2 : ∀ gs : List String, dirname ICNS_OUT ∈ initDirs gs := by
    intro gs
    unfold initDirs
    by_cases h1 : ICONSET ∈ gs
    · simp only [h1, if_true]
      by_cases h2 : dirname ICNS_OUT ∈ gs
      · simp [h2]
      · simp [h2]
    · simp only [h1, if_false]
      by_cases h2 : dirname ICNS_OUT ∈ ICONSET :: gs
      · simp [h2]
      · simp [h2]
  have hfix : ∀ gs : List String, ICONSET ∈ gs → dirname ICNS_OUT ∈ gs →
      initDirs gs = gs := by
    intro gs hg1 hg2
    unfold initDirs
    simp [hg1, hg2]
  have hhead : ∃ rest, (main env).1 =
      Event.makedirs ICONSET :: Event.makedirs (dirname ICNS_OUT) :: rest := by
    by_cases hall : ∀ e ∈ SIZES, renderExit env e = 0
    · by_cases hic : env.iconutilExit = 0
      · exact ⟨SIZES.flatMap itemEvents ++
          [Event.output "Creating .icns...\n", Event.pack ICONSET ICNS_OUT,
           Event.output ("Done: " ++ ICNS_OUT ++ "\n")],
          by rw [main_ok env hall hic]; simp⟩
      · exact ⟨SIZES.flatMap itemEvents ++
          [Event.output "Creating .icns...\n", Event.pack ICONSET ICNS_OUT],
          by rw [main_packfail env hall hic]; simp⟩
    · obtain ⟨l1, e, l2, hsp, h1, h2⟩ := exists_first_failure SIZES hall
      exact ⟨l1.flatMap itemEvents ++
        [Event.output (progressLine e.1 e.2),
         Event.render (joinPath ICONSET e.1) e.2],
        by rw [main_renderfail env l1 e l2 hsp h1 h2]; simp⟩
  have hidem : initDirs (initDirs fs) = initDirs fs :=
    hfix (initDirs fs) (hmem1 fs) (hmem2 fs)
  refine ⟨hhead, hstep fs, hmem1 fs, hmem2 fs, ?_, hidem⟩
  rw [hstep (initDirs fs), hidem]

/-- C8: in a fully successful run the trace is exactly: the two directory
creations, then for each `SIZES` entry in order its progress line, its
render call and its `OK` line, then the packaging announcement, the
packaging call, and the completion message naming the output path; and in
a run whose first failure is at a given entry, the progress line of that
entry is still printed immediately before its failing render call. -/
theorem progress_lines_and_completion_message (env : Env) :
    ((∀ e ∈ SIZES, renderExit env e = 0) → env.iconutilExit = 0 →
      (main env).1 =
        [Event.makedirs ICONSET, Event.makedirs (dirname ICNS_OUT)] ++
        SIZES.flatMap itemEvents ++
        [Event.output "Creating .icns...\n", Event.pack ICONSET ICNS_OUT,
         Event.output ("Done: " ++ ICNS_OUT ++ "\n")]) ∧
    (∀ l1 e l2, SIZES = l1 ++ e :: l2 →
      (∀ x ∈ l1, renderExit env x = 0) → renderExit env e ≠ 0 →
      (main env).1 =
        [Event.makedirs ICONSET, Event.makedirs (dirname ICNS_OUT)] ++
        l1.flatMap itemEvents ++
        [Event.output (progressLine e.1 e.2),
         Event.render (joinPath ICONSET e.1) e.2]) := by
  constructor
  · intro hall hic
    rw [main_ok env hall hic]
  · intro l1 e l2 hsp h1 h2
    rw [main_renderfail env l1 e l2 hsp h1 h2]
    simp [List.append_assoc]

/-- C8 witness: the full-success trace shape at an environment whose
processes all exit with status zero. -/
theorem progress_lines_and_completion_message_witness :
    (main ⟨fun _ _ => 0, 0⟩).1 =
      [Event.makedirs ICONSET, Event.makedirs (dirname ICNS_OUT)] ++
      SIZES.flatMap itemEvents ++
      [Event.output "Creating .icns...\n", Event.pack ICONSET ICNS_OUT,
       Event.output ("Done: " ++ ICNS_OUT ++ "\n")] :=
  (progress_lines_and_completion_message ⟨fun _ _ => 0, 0⟩).1
    (fun _ _ => rfl) rfl

end GenIcon
